import Mathlib

/-!
Verification of the search-request/response normalization core of the
Asteroid browser clone (`src/comet.py`), a Streamlit UI around one call to
the Tavily search API.  The development shallowly embeds:

* the parsed JSON values the provider may return (`Json`),
* Python `dict.get` / `dict[k] = v` on objects modelled as ordered
  association lists (`getKey`, `pySet`), mirroring dict key order
  (assignment replaces in place, otherwise appends),
* Python `str.strip` (`pyStrip`) and Python truthiness (`pyTruthy`),
* the body of `tavily_search` (lines 18-58): the fail-fast key check, the
  single POST request it constructs, the `raise_for_status` /
  `RequestException` error boundary, and the in-place normalization of the
  `answer`, `results` and `images` fields,
* the per-item extraction performed by the three render tabs (lines
  191-259), including the best-effort `published_date` reformat.
-/

namespace Comet

/-- Parsed JSON values, as produced by `response.json()`. -/
inductive Json where
  | null : Json
  | bool : Bool → Json
  | num : Int → Json
  | str : String → Json
  | arr : List Json → Json
  | obj : List (String × Json) → Json

/-- Python `d.get(k)` on a dict modelled as an ordered association list. -/
def getKey : List (String × Json) → String → Option Json
  | [], _ => none
  | (k', v) :: rest, k => if k' = k then some v else getKey rest k

/-- Whether the dict has key `k` (`k in d`). -/
def hasKey : List (String × Json) → String → Bool
  | [], _ => false
  | (k', _) :: rest, k => k' = k || hasKey rest k

/-- Replace the value at every pair whose key is `k` (on a real Python dict
keys are unique, so this is the in-place update of the one entry). -/
def setAll : List (String × Json) → String → Json → List (String × Json)
  | [], _, _ => []
  | (k', v') :: rest, k, v =>
      if k' = k then (k, v) :: setAll rest k v else (k', v') :: setAll rest k v

/-- Python `d[k] = v`: update in place when the key exists, else append,
preserving dict insertion order. -/
def pySet (fs : List (String × Json)) (k : String) (v : Json) :
    List (String × Json) :=
  if hasKey fs k then setAll fs k v else fs ++ [(k, v)]

/-- ASCII whitespace recognised by Python `str.strip` and the `\s` class. -/
def isPySpace (c : Char) : Bool :=
  c == ' ' || c == '\t' || c == '\n' || c == '\r' || c == '\x0b' || c == '\x0c'

/-- Strip leading and trailing whitespace from a character list. -/
def stripChars (l : List Char) : List Char :=
  ((l.dropWhile isPySpace).reverse.dropWhile isPySpace).reverse

/-- Python `s.strip()`. -/
def pyStrip (s : String) : String := ⟨stripChars s.data⟩

/-- Python truthiness of a JSON value (`bool(x)`). -/
def pyTruthy : Json → Bool
  | .null => false
  | .bool b => b
  | .num n => n != 0
  | .str s => s != ""
  | .arr l => !l.isEmpty
  | .obj fs => !fs.isEmpty

/-- Truthiness of the result of a `d.get(k)` (missing key gives `None`). -/
def truthyOpt : Option Json → Bool
  | none => false
  | some j => pyTruthy j

/-- `isinstance(x, list)` on the result of a `d.get(k)`. -/
def isArrOpt : Option Json → Bool
  | some (Json.arr _) => true
  | _ => false

/-- The string `tavily_search` stores into `data["answer"]`: the stripped
answer when the provider sent a string, `""` otherwise (lines 39-44). -/
def answerValue (fs : List (String × Json)) : String :=
  match getKey fs "answer" with
  | some (Json.str s) => pyStrip s
  | _ => ""

/-- Lines 47-48: `data["results"] = []` unless it already is a list. -/
def fixResults (fs : List (String × Json)) : List (String × Json) :=
  if isArrOpt (getKey fs "results") then fs else pySet fs "results" (Json.arr [])

/-- Lines 51-52: `data["images"] = []` unless it already is a list. -/
def fixImages (fs : List (String × Json)) : List (String × Json) :=
  if isArrOpt (getKey fs "images") then fs else pySet fs "images" (Json.arr [])

/-- The in-place normalization `tavily_search` performs on a parsed response
object before returning it (lines 38-54). -/
def normalizeFields (fs : List (String × Json)) : List (String × Json) :=
  fixImages (fixResults (pySet fs "answer" (Json.str (answerValue fs))))

/-! ### Association-list lemmas -/

theorem hasKey_false_no_mem {fs : List (String × Json)} {k : String}
    (h : hasKey fs k = false) : ∀ q ∈ fs, q.1 ≠ k := by
  induction fs with
  | nil => intro q hq; simp at hq
  | cons p rest ih =>
      simp only [hasKey, Bool.or_eq_false_iff, decide_eq_false_iff_not] at h
      intro q hq
      rcases List.mem_cons.mp hq with hq | hq
      · subst hq; exact h.1
      · exact ih h.2 q hq

theorem getKey_none_of_hasKey_false {fs : List (String × Json)} {k : String}
    (h : hasKey fs k = false) : getKey fs k = none := by
  induction fs with
  | nil => rfl
  | cons q rest ih =>
      obtain ⟨k', v⟩ := q
      simp only [hasKey, Bool.or_eq_false_iff, decide_eq_false_iff_not] at h
      simp [getKey, h.1, ih h.2]

theorem getKey_append (fs gs : List (String × Json)) (k : String) :
    getKey (fs ++ gs) k =
      match getKey fs k with
      | some v => some v
      | none => getKey gs k := by
  induction fs with
  | nil => rfl
  | cons q rest ih =>
      obtain ⟨k', v⟩ := q
      by_cases h : k' = k
      · subst h; simp [getKey]
      · simp [getKey, h, ih]

theorem getKey_setAll_self {fs : List (String × Json)} {k : String} (v : Json)
    (h : hasKey fs k = true) : getKey (setAll fs k v) k = some v := by
  induction fs with
  | nil => simp [hasKey] at h
  | cons q rest ih =>
      obtain ⟨k', v'⟩ := q
      by_cases hk : k' = k
      · subst hk
        simp [setAll, getKey]
      · simp only [hasKey, Bool.or_eq_true, decide_eq_true_eq] at h
        rcases h with h | h
        · exact absurd h hk
        · simp [setAll, getKey, hk, ih h]

theorem getKey_setAll_other {fs : List (String × Json)} {k k' : String}
    (v : Json) (h : k' ≠ k) : getKey (setAll fs k v) k' = getKey fs k' := by
  induction fs with
  | nil => rfl
  | cons q rest ih =>
      obtain ⟨k₀, v₀⟩ := q
      by_cases hk : k₀ = k
      · subst hk
        simp [setAll, getKey, Ne.symm h, ih]
      · simp [setAll, getKey, hk, ih]

theorem getKey_pySet_self (fs : List (String × Json)) (k : String) (v : Json) :
    getKey (pySet fs k v) k = some v := by
  unfold pySet
  by_cases h : hasKey fs k
  · simp [h, getKey_setAll_self v h]
  · simp only [h, Bool.false_eq_true, if_false]
    rw [getKey_append, getKey_none_of_hasKey_false (by simpa using h)]
    simp [getKey]

theorem getKey_pySet_other (fs : List (String × Json)) {k k' : String}
    (v : Json) (h : k' ≠ k) : getKey (pySet fs k v) k' = getKey fs k' := by
  unfold pySet
  by_cases hh : hasKey fs k
  · simp [hh, getKey_setAll_other v h]
  · simp only [hh, Bool.false_eq_true, if_false]
    rw [getKey_append]
    cases hg : getKey fs k' with
    | none => simp [getKey, Ne.symm h]
    | some w => rfl

theorem hasKey_setAll (fs : List (String × Json)) (k k' : String) (v : Json) :
    hasKey (setAll fs k v) k' = hasKey fs k' := by
  induction fs with
  | nil => rfl
  | cons q rest ih =>
      obtain ⟨k₀, v₀⟩ := q
      by_cases hk : k₀ = k
      · subst hk; simp [setAll, hasKey, ih]
      · simp [setAll, hasKey, hk, ih]

theorem hasKey_append (fs gs : List (String × Json)) (k : String) :
    hasKey (fs ++ gs) k = (hasKey fs k || hasKey gs k) := by
  induction fs with
  | nil => rfl
  | cons q rest ih =>
      obtain ⟨k', v⟩ := q
      simp [hasKey, ih, Bool.or_assoc]

theorem hasKey_pySet_self (fs : List (String × Json)) (k : String) (v : Json) :
    hasKey (pySet fs k v) k = true := by
  unfold pySet
  by_cases h : hasKey fs k
  · simp [h, hasKey_setAll]
  · simp [h, hasKey_append, hasKey]

theorem hasKey_of_getKey_some {fs : List (String × Json)} {k : String}
    {v : Json} (h : getKey fs k = some v) : hasKey fs k = true := by
  by_cases hh : hasKey fs k
  · exact hh
  · rw [getKey_none_of_hasKey_false (by simpa using hh)] at h
    exact absurd h (by simp)

theorem mem_setAll {fs : List (String × Json)} {k : String} {v : Json}
    {q : String × Json} (hq : q ∈ setAll fs k v) :
    q = (k, v) ∨ (q ∈ fs ∧ q.1 ≠ k) := by
  induction fs with
  | nil => simp [setAll] at hq
  | cons p rest ih =>
      obtain ⟨k₀, v₀⟩ := p
      by_cases hk : k₀ = k
      · subst hk
        simp only [setAll, if_true, eq_self_iff_true] at hq
        rcases List.mem_cons.mp hq with hq | hq
        · exact Or.inl hq
        · rcases ih hq with h | ⟨hm, hne⟩
          · exact Or.inl h
          · exact Or.inr ⟨List.mem_cons_of_mem _ hm, hne⟩
      · simp only [setAll] at hq
        rw [if_neg hk] at hq
        rcases List.mem_cons.mp hq with hq | hq
        · exact Or.inr ⟨by simp [hq], by rw [hq]; exact hk⟩
        · rcases ih hq with h | ⟨hm, hne⟩
          · exact Or.inl h
          · exact Or.inr ⟨List.mem_cons_of_mem _ hm, hne⟩

theorem mem_pySet {fs : List (String × Json)} {k : String} {v : Json}
    {q : String × Json} (hq : q ∈ pySet fs k v) :
    q = (k, v) ∨ (q ∈ fs ∧ q.1 ≠ k) := by
  unfold pySet at hq
  by_cases h : hasKey fs k
  · simp only [h, if_true] at hq
    exact mem_setAll hq
  · simp only [h, Bool.false_eq_true, if_false] at hq
    rcases List.mem_append.mp hq with hq | hq
    · exact Or.inr ⟨hq, hasKey_false_no_mem (by simpa using h) q hq⟩
    · simp at hq; exact Or.inl hq

/-- All pairs of the list carrying key `k` carry value `v`. -/
def allVal (fs : List (String × Json)) (k : String) (v : Json) : Prop :=
  ∀ q ∈ fs, q.1 = k → q.2 = v

theorem allVal_pySet_self (fs : List (String × Json)) (k : String) (v : Json) :
    allVal (pySet fs k v) k v := by
  intro q hq hqk
  rcases mem_pySet hq with h | ⟨_, hne⟩
  · rw [h]
  · exact absurd hqk hne

theorem allVal_pySet_other {fs : List (String × Json)} {k k' : String}
    {v : Json} (w : Json) (h : k' ≠ k) (hv : allVal fs k' v) :
    allVal (pySet fs k w) k' v := by
  intro q hq hqk
  rcases mem_pySet hq with hq | ⟨hm, _⟩
  · rw [hq] at hqk
    exact absurd hqk.symm h
  · exact hv q hm hqk

theorem setAll_eq_self {fs : List (String × Json)} {k : String} {v : Json}
    (h : allVal fs k v) : setAll fs k v = fs := by
  induction fs with
  | nil => rfl
  | cons q rest ih =>
      obtain ⟨k₀, v₀⟩ := q
      have hrest := ih (fun r hr => h r (List.mem_cons_of_mem _ hr))
      by_cases hk : k₀ = k
      · subst hk
        have hv := h ⟨k₀, v₀⟩ (by simp) rfl
        simp at hv
        simp [setAll, hv, hrest]
      · simp [setAll, hk, hrest]

theorem pySet_eq_self {fs : List (String × Json)} {k : String} {v : Json}
    (h1 : hasKey fs k = true) (h2 : allVal fs k v) : pySet fs k v = fs := by
  unfold pySet
  simp [h1, setAll_eq_self h2]

/-! ### `str.strip` is idempotent -/

theorem dropWhile_head_false {p : Char → Bool} :
    ∀ (l : List Char) (a : Char) (t : List Char),
      l.dropWhile p = a :: t → p a = false := by
  intro l
  induction l with
  | nil => intro a t h; simp [List.dropWhile] at h
  | cons b rest ih =>
      intro a t h
      by_cases hb : p b
      · rw [List.dropWhile_cons_of_pos hb] at h
        exact ih a t h
      · rw [List.dropWhile_cons_of_neg hb] at h
        cases h
        simpa using hb

theorem dropWhile_idem (p : Char → Bool) (l : List Char) :
    (l.dropWhile p).dropWhile p = l.dropWhile p := by
  cases h : l.dropWhile p with
  | nil => simp
  | cons a t =>
      rw [List.dropWhile_cons_of_neg]
      simp [dropWhile_head_false l a t h]

theorem stripChars_idem (l : List Char) :
    stripChars (stripChars l) = stripChars l := by
  unfold stripChars
  set p := isPySpace
  set A := l.dropWhile p with hA
  set B := A.reverse.dropWhile p with hB
  have hAfix : A.dropWhile p = A := by rw [hA]; exact dropWhile_idem p l
  have h1 : B.reverse.dropWhile p = B.reverse := by
    cases hBr : B.reverse with
    | nil => simp
    | cons a t =>
        have hsplit : A.reverse.takeWhile p ++ B = A.reverse := by
          rw [hB]; exact List.takeWhile_append_dropWhile p A.reverse
        have hApref : A = a :: (t ++ (A.reverse.takeWhile p).reverse) := by
          have hrev : A = B.reverse ++ (A.reverse.takeWhile p).reverse := by
            calc A = A.reverse.reverse := (List.reverse_reverse A).symm
            _ = (A.reverse.takeWhile p ++ B).reverse := by rw [hsplit]
            _ = B.reverse ++ (A.reverse.takeWhile p).reverse := by
                  rw [List.reverse_append]
          conv_lhs => rw [hrev]
          rw [hBr]; simp
        have hpa : p a = false := by
          apply dropWhile_head_false A a (t ++ (A.reverse.takeWhile p).reverse)
          rw [hAfix]; exact hApref
        rw [List.dropWhile_cons_of_neg (by simp [hpa])]
  have h2 : B.dropWhile p = B := by rw [hB]; exact dropWhile_idem p A.reverse
  rw [h1, List.reverse_reverse, h2]

theorem pyStrip_idem (s : String) : pyStrip (pyStrip s) = pyStrip s := by
  unfold pyStrip
  exact congrArg String.mk (stripChars_idem s.data)

/-! ### Characterizing the normalization -/

theorem getKey_fixResults_other (fs : List (String × Json)) {k : String}
    (h : k ≠ "results") : getKey (fixResults fs) k = getKey fs k := by
  unfold fixResults
  split
  · rfl
  · exact getKey_pySet_other fs _ h

theorem getKey_fixImages_other (fs : List (String × Json)) {k : String}
    (h : k ≠ "images") : getKey (fixImages fs) k = getKey fs k := by
  unfold fixImages
  split
  · rfl
  · exact getKey_pySet_other fs _ h

theorem normalize_answer (fs : List (String × Json)) :
    getKey (normalizeFields fs) "answer" =
      some (Json.str (answerValue fs)) := by
  unfold normalizeFields
  rw [getKey_fixImages_other _ (by decide), getKey_fixResults_other _ (by decide),
      getKey_pySet_self]

theorem normalize_results (fs : List (String × Json)) :
    getKey (normalizeFields fs) "results" =
      some (Json.arr (match getKey fs "results" with
        | some (Json.arr l) => l
        | _ => [])) := by
  unfold normalizeFields
  rw [getKey_fixImages_other _ (by decide)]
  have h1 : getKey (pySet fs "answer" (Json.str (answerValue fs))) "results" =
      getKey fs "results" := getKey_pySet_other fs _ (by decide)
  unfold fixResults
  rw [h1]
  cases hm : getKey fs "results" with
  | none => simp [isArrOpt, getKey_pySet_self]
  | some j => cases j <;> simp [isArrOpt, getKey_pySet_self, h1, hm]

theorem normalize_results_isArr (fs : List (String × Json)) :
    isArrOpt (getKey (normalizeFields fs) "results") = true := by
  rw [normalize_results fs]
  rfl

theorem normalize_images_isArr (fs : List (String × Json)) :
    isArrOpt (getKey (normalizeFields fs) "images") = true := by
  unfold normalizeFields fixImages
  split
  · assumption
  · rw [getKey_pySet_self]
    rfl

theorem allVal_fixResults {fs : List (String × Json)} {k : String} {v : Json}
    (h : k ≠ "results") (hv : allVal fs k v) : allVal (fixResults fs) k v := by
  unfold fixResults
  split
  · exact hv
  · exact allVal_pySet_other _ h hv

theorem allVal_fixImages {fs : List (String × Json)} {k : String} {v : Json}
    (h : k ≠ "images") (hv : allVal fs k v) : allVal (fixImages fs) k v := by
  unfold fixImages
  split
  · exact hv
  · exact allVal_pySet_other _ h hv

theorem normalize_allVal_answer (fs : List (String × Json)) :
    allVal (normalizeFields fs) "answer" (Json.str (answerValue fs)) :=
  allVal_fixImages (by decide)
    (allVal_fixResults (by decide) (allVal_pySet_self fs _ _))

theorem pyStrip_empty : pyStrip "" = "" := rfl

theorem answerValue_strip_fixed (fs : List (String × Json)) :
    pyStrip (answerValue fs) = answerValue fs := by
  unfold answerValue
  cases h : getKey fs "answer" with
  | none => exact pyStrip_empty
  | some j =>
      cases j with
      | str s => exact pyStrip_idem s
      | null => exact pyStrip_empty
      | bool b => exact pyStrip_empty
      | num n => exact pyStrip_empty
      | arr l => exact pyStrip_empty
      | obj o => exact pyStrip_empty

theorem answerValue_normalized (fs : List (String × Json)) :
    answerValue (normalizeFields fs) = answerValue fs := by
  calc answerValue (normalizeFields fs)
      = (match getKey (normalizeFields fs) "answer" with
          | some (Json.str s) => pyStrip s
          | _ => "") := rfl
    _ = pyStrip (answerValue fs) := by rw [normalize_answer fs]
    _ = answerValue fs := answerValue_strip_fixed fs

/-- C1: if the provider's `answer` is a string, the normalized `answer` is
that string with leading/trailing whitespace stripped; in every other case
(absent, null, number, boolean, array, object) it is exactly `""`
(`src/comet.py` lines 39-44). -/
theorem answer_normalized (fs : List (String × Json)) :
    getKey (normalizeFields fs) "answer" =
      some (Json.str (match getKey fs "answer" with
        | some (Json.str s) => pyStrip s
        | _ => "")) :=
  normalize_answer fs

/-- C6: the normalization `tavily_search` applies to a parsed response body
is idempotent — applying it to its own output returns that output unchanged
(`src/comet.py` lines 39-54). -/
theorem normalize_idempotent (fs : List (String × Json)) :
    normalizeFields (normalizeFields fs) = normalizeFields fs := by
  have hA : getKey (normalizeFields fs) "answer" =
      some (Json.str (answerValue fs)) := normalize_answer fs
  have e1 : pySet (normalizeFields fs) "answer"
      (Json.str (answerValue (normalizeFields fs))) = normalizeFields fs := by
    rw [answerValue_normalized fs]
    exact pySet_eq_self (hasKey_of_getKey_some hA) (normalize_allVal_answer fs)
  calc normalizeFields (normalizeFields fs)
      = fixImages (fixResults (pySet (normalizeFields fs) "answer"
          (Json.str (answerValue (normalizeFields fs))))) := rfl
    _ = fixImages (fixResults (normalizeFields fs)) := by rw [e1]
    _ = fixImages (normalizeFields fs) := by
          simp [fixResults, normalize_results_isArr fs]
    _ = normalizeFields fs := by
          simp [fixImages, normalize_images_isArr fs]

/-- C9: normalization touches only the `answer`, `results` and `images`
keys; every other field of the parsed response object passes through
`tavily_search` unchanged and is visible to the caller
(`src/comet.py` lines 36-54). -/
theorem normalize_frame (fs : List (String × Json)) (k : String)
    (h1 : k ≠ "answer") (h2 : k ≠ "results") (h3 : k ≠ "images") :
    getKey (normalizeFields fs) k = getKey fs k := by
  unfold normalizeFields
  rw [getKey_fixImages_other _ h3, getKey_fixResults_other _ h2,
      getKey_pySet_other fs _ h1]

/-- Witness for C9: an extra provider field survives normalization. -/
theorem normalize_frame_witness :
    getKey (normalizeFields [("query", Json.str "moon")]) "query" =
      some (Json.str "moon") :=
  (normalize_frame [("query", Json.str "moon")] "query" (by decide) (by decide)
    (by decide)).trans rfl

/-! ### The search call: request construction and the error boundary -/

/-- The one outbound HTTP call `tavily_search` can make
(`requests.post(TAVILY_URL, json=payload, timeout=20)`). -/
structure Request where
  url : String
  timeoutSeconds : Nat
  body : List (String × Json)

/-- What the transport produces for a request: either `requests.post`
raises a `RequestException` (connection error, timeout, ...), or an HTTP
response arrives with a status code and a body that may or may not parse as
JSON (`response.json()` raises a `RequestException` subclass on a
non-JSON body in requests ≥ 2.27). -/
inductive HttpOutcome where
  | transportError (cause : String)
  | response (status : Nat) (body : Option Json)

/-- The observable result of `tavily_search`: the distinct `st.error`
message plus `return None` for the missing-key path (line 21-22), the
distinct `st.error` message plus `return None` for the
`RequestException` path (lines 56-58), the normalized data on success
(line 54), or an exception escaping the function (`data.get` on a
non-dict JSON body raises `AttributeError`, which the
`except requests.exceptions.RequestException` clause does not catch). -/
inductive SearchOutcome where
  | configError (message : String)
  | networkError (message : String)
  | success (data : List (String × Json))
  | uncaught (message : String)

/-- `if not TAVILY_API_KEY:` — the key is missing when unset (`os.getenv`
returned `None`) or set to the empty (falsy) string. -/
def keyMissing : Option String → Bool
  | none => true
  | some k => k == ""

def TAVILY_URL : String := "https://api.tavily.com/search"

/-- The JSON payload built on lines 24-31. -/
def mkPayload (key query : String) (maxResults : Int) :
    List (String × Json) :=
  [("api_key", Json.str key),
   ("query", Json.str (pyStrip query)),
   ("include_answer", Json.bool true),
   ("include_images", Json.bool true),
   ("include_raw_content", Json.bool false),
   ("max_results", Json.num maxResults)]

def mkRequest (key query : String) (maxResults : Int) : Request :=
  ⟨TAVILY_URL, 20, mkPayload key query maxResults⟩

/-- `tavily_search(query, max_results=5)` (lines 18-58), as a function of
the configured key, the arguments, and the transport behaviour `net`.
Returns the list of HTTP requests issued together with the outcome.
`raise_for_status` raises `HTTPError` exactly for status codes in
[400, 600). -/
def tavilySearch (apiKey : Option String) (query : String) (maxResults : Int)
    (net : Request → HttpOutcome) : List Request × SearchOutcome :=
  if keyMissing apiKey then
    ([], .configError "TAVILY_API_KEY is missing")
  else
    let req := mkRequest (apiKey.getD "") query maxResults
    match net req with
    | .transportError cause =>
        ([req], .networkError ("Tavily API Error: " ++ cause))
    | .response status body =>
        if 400 ≤ status ∧ status < 600 then
          ([req], .networkError ("Tavily API Error: HTTP " ++ toString status))
        else
          match body with
          | none => ([req], .networkError "Tavily API Error: invalid JSON body")
          | some (Json.obj fs) => ([req], .success (normalizeFields fs))
          | some _ => ([req], .uncaught "AttributeError")

/-- C4: with the credential unset or empty, `tavily_search` shows the
missing-key error and returns without issuing any network call, and this
config failure is a different outcome from every network failure
(`src/comet.py` lines 20-22, 56-58). -/
theorem missing_key_config_error (apiKey : Option String) (query : String)
    (maxResults : Int) (net : Request → HttpOutcome)
    (h : keyMissing apiKey = true) :
    tavilySearch apiKey query maxResults net =
      ([], SearchOutcome.configError "TAVILY_API_KEY is missing") ∧
    ∀ e, SearchOutcome.configError "TAVILY_API_KEY is missing" ≠
      SearchOutcome.networkError e := by
  constructor
  · unfold tavilySearch
    rw [h]
    rfl
  · intro e he
    exact SearchOutcome.noConfusion he

/-- Witness for C4 at a concrete unset key. -/
theorem missing_key_config_error_witness :
    tavilySearch none "moon landing year" 5
      (fun _ => HttpOutcome.transportError "connection refused") =
      ([], SearchOutcome.configError "TAVILY_API_KEY is missing") :=
  (missing_key_config_error none "moon landing year" 5
    (fun _ => HttpOutcome.transportError "connection refused") rfl).1

/-- Counterexample to C5 as stated: a non-2xx status is not always a
`NetworkError`.  `raise_for_status` only raises for statuses in
[400, 600), so an HTTP 300 response with a JSON object body flows through
normalization and is returned as a success. -/
theorem status_300_not_network_error :
    (tavilySearch (some "key") "q" 5
      (fun _ => HttpOutcome.response 300 (some (Json.obj [])))).2 =
      SearchOutcome.success
        [("answer", Json.str ""), ("results", Json.arr []),
         ("images", Json.arr [])] := rfl

/-- C5 (amended): on a `RequestException` from the transport (connection
error, timeout) or an HTTP status in [400, 600) — 4xx/5xx, e.g. 500 — the
call returns the network-error outcome carrying the underlying cause, and
no exception escapes (`src/comet.py` lines 33-58). -/
theorem transport_failure_network_error (k query : String) (maxResults : Int)
    (net : Request → HttpOutcome) (hk : keyMissing (some k) = false) :
    (∀ cause, net (mkRequest k query maxResults) =
        HttpOutcome.transportError cause →
      (tavilySearch (some k) query maxResults net).2 =
        SearchOutcome.networkError ("Tavily API Error: " ++ cause)) ∧
    (∀ status body, net (mkRequest k query maxResults) =
        HttpOutcome.response status body → 400 ≤ status → status < 600 →
      (tavilySearch (some k) query maxResults net).2 =
        SearchOutcome.networkError
          ("Tavily API Error: HTTP " ++ toString status)) := by
  constructor
  · intro cause hnet
    unfold tavilySearch
    rw [hk]
    simp only [Bool.false_eq_true, if_false]
    rw [show (some k).getD "" = k from rfl, hnet]
  · intro status body hnet h4 h6
    unfold tavilySearch
    rw [hk]
    simp only [Bool.false_eq_true, if_false]
    rw [show (some k).getD "" = k from rfl, hnet]
    simp [h4, h6]

/-- Witness for C5 (amended): a timeout and an HTTP 500 both surface as the
network-error outcome. -/
theorem transport_failure_network_error_witness :
    (tavilySearch (some "key") "q" 5
      (fun _ => HttpOutcome.transportError "timeout")).2 =
      SearchOutcome.networkError ("Tavily API Error: " ++ "timeout") ∧
    (tavilySearch (some "key") "q" 5
      (fun _ => HttpOutcome.response 500 (some (Json.obj [])))).2 =
      SearchOutcome.networkError ("Tavily API Error: HTTP " ++ toString 500) :=
  ⟨(transport_failure_network_error "key" "q" 5
      (fun _ => HttpOutcome.transportError "timeout") rfl).1 "timeout" rfl,
   (transport_failure_network_error "key" "q" 5
      (fun _ => HttpOutcome.response 500 (some (Json.obj []))) rfl).2
      500 (some (Json.obj [])) rfl (by decide) (by decide)⟩

/-- C7: with a configured key and the default `max_results` of 5,
`tavily_search` issues exactly one POST, to the Tavily search endpoint with
a 20-second timeout, whose JSON body holds the API key, the
whitespace-trimmed query, `include_answer=True`, `include_images=True`,
`include_raw_content=False` and `max_results=5`
(`src/comet.py` lines 18-34). -/
theorem single_post_request (k query : String) (net : Request → HttpOutcome)
    (h : k ≠ "") :
    (tavilySearch (some k) query 5 net).1 =
      [⟨"https://api.tavily.com/search", 20,
        [("api_key", Json.str k),
         ("query", Json.str (pyStrip query)),
         ("include_answer", Json.bool true),
         ("include_images", Json.bool true),
         ("include_raw_content", Json.bool false),
         ("max_results", Json.num 5)]⟩] := by
  unfold tavilySearch
  rw [show keyMissing (some k) = false by simp [keyMissing, h]]
  simp only [Bool.false_eq_true, if_false]
  rw [show (some k).getD "" = k from rfl]
  cases hnet : net (mkRequest k query 5) with
  | transportError cause => rfl
  | response status body =>
      dsimp only
      by_cases hst : 400 ≤ status ∧ status < 600
      · rw [if_pos hst]
        rfl
      · rw [if_neg hst]
        cases body with
        | none => rfl
        | some j => cases j <;> rfl

/-- Witness for C7, with a query carrying surrounding whitespace. -/
theorem single_post_request_witness :
    (tavilySearch (some "secret") " moon landing year " 5
      (fun _ => HttpOutcome.transportError "down")).1 =
      [⟨"https://api.tavily.com/search", 20,
        [("api_key", Json.str "secret"),
         ("query", Json.str "moon landing year"),
         ("include_answer", Json.bool true),
         ("include_images", Json.bool true),
         ("include_raw_content", Json.bool false),
         ("max_results", Json.num 5)]⟩] :=
  (single_post_request "secret" " moon landing year "
    (fun _ => HttpOutcome.transportError "down") (by decide)).trans rfl

/-! ### The render layer: tab 2 source items and the date round trip -/

/-- A decimal digit. -/
def digit? (c : Char) : Option Nat :=
  if c.isDigit then some (c.toNat - 48) else none

/-- A numeric field of Python `strptime`: prefer two digits when their
value lies in `[lo2, hi2]`, else accept a single digit of value at least
`lo1` — mirroring the regex alternations `(3[01]|[12]\d|0[1-9]|[1-9])`
for `%d`, `(2[0-3]|[0-1]\d|\d)` for `%H`, `([0-5]\d|\d)` for `%M` and
`(6[01]|[0-5]\d|\d)` for `%S`. -/
def numField (lo2 hi2 lo1 : Nat) : List Char → Option (Nat × List Char)
  | c1 :: c2 :: rest =>
      match digit? c1, digit? c2 with
      | some d1, some d2 =>
          if lo2 ≤ 10 * d1 + d2 ∧ 10 * d1 + d2 ≤ hi2 then
            some (10 * d1 + d2, rest)
          else if lo1 ≤ d1 then some (d1, c2 :: rest) else none
      | some d1, none => if lo1 ≤ d1 then some (d1, c2 :: rest) else none
      | none, _ => none
  | [c1] =>
      match digit? c1 with
      | some d1 => if lo1 ≤ d1 then some (d1, []) else none
      | none => none
  | [] => none

/-- Exactly four digits (`\d\d\d\d` for `%Y`). -/
def year4 : List Char → Option (Nat × List Char)
  | a :: b :: c :: d :: rest => do
      let x ← digit? a
      let y ← digit? b
      let z ← digit? c
      let w ← digit? d
      pure (1000 * x + 100 * y + 10 * z + w, rest)
  | _ => none

/-- Literal whitespace in a strptime format matches a nonempty whitespace
run (`\s+`). -/
def ws1 : List Char → Option (List Char)
  | c :: rest => if isPySpace c then some (rest.dropWhile isPySpace) else none
  | [] => none

/-- A literal character of the format. -/
def lit (c : Char) : List Char → Option (List Char)
  | c' :: rest => if c' = c then some rest else none
  | [] => none

/-- Match one name of a finite alternation (all alternatives here have
length 3, so order is immaterial), returning its index and the rest. -/
def matchNameFrom : List (List Char) → Nat → List Char → Option (Nat × List Char)
  | [], _, _ => none
  | n :: ns, i, l =>
      if n.isPrefixOf l then some (i, l.drop n.length)
      else matchNameFrom ns (i + 1) l

def matchName (names : List (List Char)) (l : List Char) :
    Option (Nat × List Char) :=
  matchNameFrom names 0 l

def dayAbbrs : List (List Char) :=
  ["mon", "tue", "wed", "thu", "fri", "sat", "sun"].map String.data

def monthAbbrs : List (List Char) :=
  ["jan", "feb", "mar", "apr", "may", "jun", "jul", "aug", "sep", "oct",
   "nov", "dec"].map String.data

/-- `%Z` alternatives in a UTC locale: `utc`, `gmt` (case-insensitively). -/
def tzNames : List (List Char) := ["utc", "gmt"].map String.data

/-- A parsed naive datetime (year, month, day, hour, minute, second). -/
structure DateTime where
  year : Nat
  month : Nat
  day : Nat
  hour : Nat
  minute : Nat
  second : Nat
deriving DecidableEq

def isLeap (y : Nat) : Bool :=
  (y % 4 == 0 && y % 100 != 0) || y % 400 == 0

def daysInMonth (y m : Nat) : Nat :=
  if m = 2 then (if isLeap y then 29 else 28)
  else if m = 4 ∨ m = 6 ∨ m = 9 ∨ m = 11 then 30 else 31

/-- Model of `datetime.strptime(s, "%a, %d %b %Y %H:%M:%S %Z")` as used on
line 225: case-insensitive abbreviated day/month names, 1-2 digit day in
1..31, four-digit year, `HH:MM:SS`, and a `%Z` zone name; the whole string
must be consumed, and the `datetime` constructor then rejects out-of-range
dates (year 0, seconds 60-61, day past the month's end).  Any failure
raises `ValueError`, i.e. returns `none` here. -/
def tryParseDate (s : String) : Option DateTime :=
  match matchName dayAbbrs (s.data.map Char.toLower) with
  | none => none
  | some (_, l1) =>
  match lit ',' l1 with
  | none => none
  | some l2 =>
  match ws1 l2 with
  | none => none
  | some l3 =>
  match numField 1 31 1 l3 with
  | none => none
  | some (day, l4) =>
  match ws1 l4 with
  | none => none
  | some l5 =>
  match matchName monthAbbrs l5 with
  | none => none
  | some (mIdx, l6) =>
  match ws1 l6 with
  | none => none
  | some l7 =>
  match year4 l7 with
  | none => none
  | some (year, l8) =>
  match ws1 l8 with
  | none => none
  | some l9 =>
  match numField 0 23 0 l9 with
  | none => none
  | some (hour, l10) =>
  match lit ':' l10 with
  | none => none
  | some l11 =>
  match numField 0 59 0 l11 with
  | none => none
  | some (minute, l12) =>
  match lit ':' l12 with
  | none => none
  | some l13 =>
  match numField 0 61 0 l13 with
  | none => none
  | some (second, l14) =>
  match ws1 l14 with
  | none => none
  | some l15 =>
  match matchName tzNames l15 with
  | none => none
  | some (_, l16) =>
  if l16 = [] ∧ 1 ≤ year ∧ second ≤ 59 ∧ day ≤ daysInMonth year (mIdx + 1) then
    some ⟨year, mIdx + 1, day, hour, minute, second⟩
  else none

def pad2 (n : Nat) : String := if n < 10 then "0" ++ toString n else toString n

def pad4 (n : Nat) : String :=
  if n < 10 then "000" ++ toString n
  else if n < 100 then "00" ++ toString n
  else if n < 1000 then "0" ++ toString n
  else toString n

def daysBeforeMonth (y m : Nat) : Nat :=
  (List.range (m - 1)).foldl (fun acc i => acc + daysInMonth y (i + 1)) 0

/-- Proleptic-Gregorian day number (0001-01-01 is day 1), as
`datetime.toordinal`; `datetime` derives the formatted weekday from the
date, not from the weekday name that was parsed. -/
def toOrdinal (t : DateTime) : Nat :=
  365 * (t.year - 1) + (t.year - 1) / 4 - (t.year - 1) / 100
    + (t.year - 1) / 400 + daysBeforeMonth t.year t.month + t.day

def weekdayNames : List String :=
  ["Mon", "Tue", "Wed", "Thu", "Fri", "Sat", "Sun"]

def monthNames : List String :=
  ["Jan", "Feb", "Mar", "Apr", "May", "Jun", "Jul", "Aug", "Sep", "Oct",
   "Nov", "Dec"]

/-- Model of `date_obj.strftime("%a, %d %b %Y %I:%M:%S %p %Z")` (line 226):
12-hour clock with AM/PM; `%Z` on the naive datetime formats as the empty
string, leaving the trailing space. -/
def formatDate (t : DateTime) : String :=
  weekdayNames.getD ((toOrdinal t - 1) % 7) "Mon" ++ ", " ++ pad2 t.day ++ " "
    ++ monthNames.getD (t.month - 1) "Jan" ++ " " ++ pad4 t.year ++ " "
    ++ pad2 (if t.hour % 12 = 0 then 12 else t.hour % 12) ++ ":"
    ++ pad2 t.minute ++ ":" ++ pad2 t.second ++ " "
    ++ (if t.hour < 12 then "AM" else "PM") ++ " "

/-- Lines 222-228: a truthy string `published_date` is reformatted through
`strptime`/`strftime`; the bare `except: pass` swallows every parse
failure (including the `TypeError` on a truthy non-string), leaving the
raw value displayed. -/
def displayedDate : Json → Json
  | Json.str s =>
      if pyTruthy (Json.str s) then
        match tryParseDate s with
        | some t => Json.str (formatDate t)
        | none => Json.str s
      else Json.str s
  | j => j

/-- What tab 2 extracts from one item of `data["results"]`
(lines 219-228). -/
structure SourceCell where
  title : Json
  url : Json
  content : Json
  publishedDate : Json

def renderSourceItem (ifs : List (String × Json)) : SourceCell :=
  ⟨(getKey ifs "title").getD (Json.str "Untitled"),
   (getKey ifs "url").getD (Json.str "#"),
   (getKey ifs "content").getD (Json.str ""),
   displayedDate ((getKey ifs "published_date").getD (Json.str ""))⟩

/-- C2: when the provider's `results` is absent or not an array the
normalized `results` is the empty array; when it is an array it is passed
through unchanged (hence same length and order); and tab 2 defaults a
missing `title`/`url`/`content` of an item to "Untitled"/"#"/""
(`src/comet.py` lines 47-48, 218-222). -/
theorem results_preserved_and_source_defaults :
    (∀ fs l, getKey fs "results" = some (Json.arr l) →
      getKey (normalizeFields fs) "results" = some (Json.arr l)) ∧
    (∀ fs, isArrOpt (getKey fs "results") = false →
      getKey (normalizeFields fs) "results" = some (Json.arr [])) ∧
    (∀ ifs, getKey ifs "title" = none →
      (renderSourceItem ifs).title = Json.str "Untitled") ∧
    (∀ ifs, getKey ifs "url" = none →
      (renderSourceItem ifs).url = Json.str "#") ∧
    (∀ ifs, getKey ifs "content" = none →
      (renderSourceItem ifs).content = Json.str "") := by
  refine ⟨?_, ?_, ?_, ?_, ?_⟩
  · intro fs l h
    rw [normalize_results fs, h]
  · intro fs h
    rw [normalize_results fs]
    cases hm : getKey fs "results" with
    | none => rfl
    | some j =>
        cases j with
        | arr l => rw [hm] at h; simp [isArrOpt] at h
        | null => rfl
        | bool b => rfl
        | num n => rfl
        | str s => rfl
        | obj o => rfl
  · intro ifs h
    simp [renderSourceItem, h]
  · intro ifs h
    simp [renderSourceItem, h]
  · intro ifs h
    simp [renderSourceItem, h]

/-- Witness for C2: a non-list `results` becomes the empty array, and a
source item with no `title` renders as "Untitled". -/
theorem results_preserved_witness :
    getKey (normalizeFields [("results", Json.str "not-a-list")]) "results" =
      some (Json.arr []) ∧
    (renderSourceItem [("url", Json.str "https://x")]).title =
      Json.str "Untitled" :=
  ⟨results_preserved_and_source_defaults.2.1 [("results", Json.str "not-a-list")]
      rfl,
   results_preserved_and_source_defaults.2.2.1 [("url", Json.str "https://x")]
      rfl⟩

/-- C8: for a source item whose `published_date` is a non-empty string, the
render layer attempts the strptime/strftime reformat and, on any parse
failure, silently falls back to displaying the raw string — the render
itself never fails (`src/comet.py` lines 222-228). -/
theorem published_date_best_effort (ifs : List (String × Json)) (s : String)
    (hpd : getKey ifs "published_date" = some (Json.str s)) (hne : s ≠ "") :
    (tryParseDate s = none →
      (renderSourceItem ifs).publishedDate = Json.str s) ∧
    (∀ t, tryParseDate s = some t →
      (renderSourceItem ifs).publishedDate = Json.str (formatDate t)) := by
  have ht : pyTruthy (Json.str s) = true := by simp [pyTruthy, hne]
  have hdisp : (renderSourceItem ifs).publishedDate =
      displayedDate (Json.str s) := by
    simp [renderSourceItem, hpd]
  constructor
  · intro hp
    rw [hdisp]
    simp [displayedDate, ht, hp]
  · intro t hp
    rw [hdisp]
    simp [displayedDate, ht, hp]

/-- Witness for C8: an ISO-style date fails the fixed format and is shown
raw; an RFC-1123-style date parses and is reformatted to a 12-hour clock
(with `%Z` empty on the naive datetime). -/
theorem published_date_best_effort_witness :
    (renderSourceItem
        [("published_date", Json.str "2024-01-01")]).publishedDate =
      Json.str "2024-01-01" ∧
    (renderSourceItem
        [("published_date",
          Json.str "Mon, 01 Jan 2024 13:05:09 UTC")]).publishedDate =
      Json.str "Mon, 01 Jan 2024 01:05:09 PM " :=
  ⟨(published_date_best_effort [("published_date", Json.str "2024-01-01")]
      "2024-01-01" rfl (by decide)).1 rfl,
   ((published_date_best_effort
      [("published_date", Json.str "Mon, 01 Jan 2024 13:05:09 UTC")]
      "Mon, 01 Jan 2024 13:05:09 UTC" rfl
      (by decide)).2 ⟨2024, 1, 1, 13, 5, 9⟩ rfl).trans rfl⟩

/-! ### Tab 3: image rendering -/

/-- What tab 3 renders for one entry of `data["images"]`: the displayed
image source, plus the optional source link and caption. -/
structure ImageCell where
  url : Json
  sourceUrl : Option Json
  caption : Option Json

/-- Lines 246-259: a plain string renders as the image itself; a dict
renders `img.get("url")` and shows the source link / caption only when
`img.get("source_url")` / `img.get("caption")` is truthy; any other entry
shape renders nothing. -/
def renderImage : Json → Option ImageCell
  | Json.str s => some ⟨Json.str s, none, none⟩
  | Json.obj fs =>
      some ⟨(getKey fs "url").getD Json.null,
        if pyTruthy ((getKey fs "source_url").getD Json.null) then
          getKey fs "source_url"
        else none,
        if pyTruthy ((getKey fs "caption").getD Json.null) then
          getKey fs "caption"
        else none⟩
  | _ => none

/-- Counterexample to C3 as stated: `source_url` can be present in the
object and still be omitted from the rendered item, because the code
guards on truthiness (`if img.get("source_url"):`), not on presence — here
the present-but-empty string is dropped. -/
theorem image_sourceUrl_present_but_omitted :
    getKey [("url", Json.str "https://img"), ("source_url", Json.str "")]
      "source_url" = some (Json.str "") ∧
    renderImage (Json.obj
      [("url", Json.str "https://img"), ("source_url", Json.str "")]) =
      some ⟨Json.str "https://img", none, none⟩ := ⟨rfl, rfl⟩

/-- C3 (amended): a plain string entry of `images` renders as an ImageItem
with only `url` set; for an object entry, `sourceUrl` (resp. `caption`) is
the object's `source_url` (resp. `caption`) value when that value is
present and truthy, and is omitted when the key is absent or its value is
falsy (e.g. the empty string or null) — presence alone does not suffice
(`src/comet.py` lines 246-259). -/
theorem image_truthy_fields :
    (∀ s, renderImage (Json.str s) = some ⟨Json.str s, none, none⟩) ∧
    (∀ fs v, getKey fs "source_url" = some v → pyTruthy v = true →
      (renderImage (Json.obj fs)).map ImageCell.sourceUrl = some (some v)) ∧
    (∀ fs, truthyOpt (getKey fs "source_url") = false →
      (renderImage (Json.obj fs)).map ImageCell.sourceUrl = some none) ∧
    (∀ fs v, getKey fs "caption" = some v → pyTruthy v = true →
      (renderImage (Json.obj fs)).map ImageCell.caption = some (some v)) ∧
    (∀ fs, truthyOpt (getKey fs "caption") = false →
      (renderImage (Json.obj fs)).map ImageCell.caption = some none) := by
  refine ⟨fun s => rfl, ?_, ?_, ?_, ?_⟩
  · intro fs v h ht
    simp [renderImage, h, ht]
  · intro fs h
    cases hg : getKey fs "source_url" with
    | none => simp [renderImage, hg, pyTruthy]
    | some v =>
        rw [hg] at h
        simp only [truthyOpt] at h
        simp [renderImage, hg, h]
  · intro fs v h ht
    simp [renderImage, h, ht]
  · intro fs h
    cases hg : getKey fs "caption" with
    | none => simp [renderImage, hg, pyTruthy]
    | some v =>
        rw [hg] at h
        simp only [truthyOpt] at h
        simp [renderImage, hg, h]

/-- Witness for C3 (amended): a truthy `source_url` is shown; an object
without a `caption` key shows none. -/
theorem image_truthy_fields_witness :
    (renderImage (Json.obj
        [("url", Json.str "u"), ("source_url", Json.str "https://page")])).map
      ImageCell.sourceUrl = some (some (Json.str "https://page")) ∧
    (renderImage (Json.obj [("url", Json.str "u")])).map ImageCell.caption =
      some none :=
  ⟨image_truthy_fields.2.1
      [("url", Json.str "u"), ("source_url", Json.str "https://page")]
      (Json.str "https://page") rfl rfl,
   image_truthy_fields.2.2.2.2 [("url", Json.str "u")] rfl⟩

/-! ### Tab 1: the answer panel -/

/-- What tab 1 shows: the initial hint, the answer box with some text, the
no-answer warning, or an unhandled exception escaping the render. -/
inductive Tab1Render where
  | info
  | answerBox (text : Json)
  | warning
  | crash (message : String)

/-- Lines 191-209: with no data (or a falsy empty dict) show the hint;
otherwise take `data.get("answer")`, and when it is falsy while
`data.get("results")` is truthy replace it by
`data["results"][0].get("content", "")` (which raises if the first entry
is not a dict); finally show the answer box when the text is truthy and
the warning otherwise. -/
def tab1Render : Option (List (String × Json)) → Tab1Render
  | none => .info
  | some fs =>
      if fs.isEmpty then .info
      else if !truthyOpt (getKey fs "answer") &&
          truthyOpt (getKey fs "results") then
        match getKey fs "results" with
        | some (Json.arr (Json.obj ifs :: _)) =>
            if pyTruthy ((getKey ifs "content").getD (Json.str "")) then
              .answerBox ((getKey ifs "content").getD (Json.str ""))
            else .warning
        | _ => .crash "unhandled exception"
      else
        match getKey fs "answer" with
        | some j => if pyTruthy j then .answerBox j else .warning
        | none => .warning

/-- C10: on a normalized result whose `answer` is `""` and whose `results`
list is non-empty (with first item a dict whose `content` is a string or
absent), tab 1 shows the first item's `content` (defaulting to `""`) in
the answer box instead of the warning; the warning appears only when that
fallback text is empty too (`src/comet.py` lines 195-209). -/
theorem answer_fallback_first_content (fs ifs : List (String × Json))
    (rest : List Json) (c : String)
    (ha : getKey (normalizeFields fs) "answer" = some (Json.str ""))
    (hr : getKey (normalizeFields fs) "results" =
      some (Json.arr (Json.obj ifs :: rest)))
    (hc : (getKey ifs "content").getD (Json.str "") = Json.str c) :
    tab1Render (some (normalizeFields fs)) =
      (if c = "" then Tab1Render.warning
       else Tab1Render.answerBox (Json.str c)) := by
  have hne : (normalizeFields fs).isEmpty = false := by
    cases hfs : normalizeFields fs with
    | nil => rw [hfs] at ha; exact absurd ha (by simp [getKey])
    | cons q rest2 => rfl
  have h0 : truthyOpt (getKey (normalizeFields fs) "answer") = false := by
    rw [ha]; rfl
  have h1 : truthyOpt (getKey (normalizeFields fs) "results") = true := by
    rw [hr]; rfl
  unfold tab1Render
  dsimp only
  rw [hne, h0, h1]
  simp only [Bool.false_eq_true, if_false, Bool.not_false, Bool.and_self,
    eq_self_iff_true, if_true]
  rw [hr]
  dsimp only
  rw [hc]
  by_cases hcc : c = ""
  · simp [hcc, pyTruthy]
  · simp [hcc, pyTruthy]

/-- Witness for C10: an empty answer with a non-empty first `content` shows
that content in the answer box. -/
theorem answer_fallback_first_content_witness :
    tab1Render (some (normalizeFields
        [("results", Json.arr [Json.obj [("content", Json.str "Apollo 11")]])]))
      = (if "Apollo 11" = "" then Tab1Render.warning
         else Tab1Render.answerBox (Json.str "Apollo 11")) :=
  answer_fallback_first_content
    [("results", Json.arr [Json.obj [("content", Json.str "Apollo 11")]])]
    [("content", Json.str "Apollo 11")] [] "Apollo 11" rfl rfl rfl

end Comet
